import Mathlib

/-!
Shallow embedding of `setup/02_installing-python-libraries/python_environment_check.py`.

The script checks installed package versions against a requirements manifest.
Pure helpers of the script (`get_packages`, `get_requirements_dict`,
`check_packages`) are translated to executable Lean functions.  Effects are
made explicit:

* the interpreter environment (importable modules, `__version__` attributes,
  distribution metadata) becomes an oracle structure `PyEnv`;
* `print` calls become returned lists of output lines;
* Python exceptions become `Except` values.  `importlib.import_module` fails
  with `ImportError`; `importlib.metadata.version` fails with
  `PackageNotFoundError`, which in CPython is a subclass of
  `ModuleNotFoundError`, itself a subclass of `ImportError` (so an
  `except ImportError` handler also catches it).

The version / specifier arithmetic of the third-party `packaging` library is
modelled from its documented PEP 440 behaviour, restricted to the fragment the
script's manifests exercise: release segments plus an optional alpha/beta/rc
pre-release suffix, and the operators `<  <=  >  >=  ==  !=`.  Epochs, post-,
dev- and local segments, wildcards and `~=` are outside the modelled fragment
(the parser rejects them).
-/

/-- PEP 440 version as used here: dotted release segments plus an optional
pre-release `(letterRank, number)` where rank 0 = a(lpha), 1 = b(eta),
2 = rc/c/pre/preview. -/
structure PyVersion where
  release : List Nat
  pre : Option (Nat × Nat)
deriving DecidableEq, Repr

/-- `Version.is_prerelease` of `packaging` (restricted fragment: only
pre-release suffixes can make a version a pre-release). -/
def PyVersion.isPrerelease (v : PyVersion) : Bool :=
  v.pre.isSome

/-- Compare an all-zero padding against remaining release segments. -/
def cmpZeros : List Nat → Ordering
  | [] => .eq
  | b :: bs => (compare 0 b).then (cmpZeros bs)

/-- Compare release tuples, zero-padding the shorter one (PEP 440). -/
def cmpRelease : List Nat → List Nat → Ordering
  | [], bs => cmpZeros bs
  | a :: as', [] => (compare a 0).then (cmpRelease as' [])
  | a :: as', b :: bs => (compare a b).then (cmpRelease as' bs)

/-- Compare pre-release suffixes: a pre-release sorts before the
corresponding final release. -/
def cmpPre : Option (Nat × Nat) → Option (Nat × Nat) → Ordering
  | none, none => .eq
  | none, some _ => .gt
  | some _, none => .lt
  | some (a, b), some (c, d) => (compare a c).then (compare b d)

/-- Total order on modelled PEP 440 versions. -/
def cmpVersion (v w : PyVersion) : Ordering :=
  (cmpRelease v.release w.release).then (cmpPre v.pre w.pre)

/-- Value of a digit run (most significant first). -/
def digitsVal (l : List Char) : Nat :=
  l.foldl (fun a c => a * 10 + (c.toNat - 48)) 0

/-- Parse `N(.N)*` off the front of a character list; fuel bounds recursion. -/
def parseDotNats : Nat → List Char → Option (List Nat × List Char)
  | 0, _ => none
  | fuel + 1, cs =>
    let ds := cs.takeWhile Char.isDigit
    let rest := cs.dropWhile Char.isDigit
    if ds.isEmpty then none
    else
      match rest with
      | '.' :: c :: cs2 =>
        if c.isDigit then
          match parseDotNats fuel (c :: cs2) with
          | some (ns, r) => some (digitsVal ds :: ns, r)
          | none => none
        else some ([digitsVal ds], rest)
      | _ => some ([digitsVal ds], rest)

/-- Rank of a pre-release word, as normalised by `packaging`. -/
def preRank (w : List Char) : Option Nat :=
  if w = ['a'] ∨ w = ['a', 'l', 'p', 'h', 'a'] then some 0
  else if w = ['b'] ∨ w = ['b', 'e', 't', 'a'] then some 1
  else if w = ['r', 'c'] ∨ w = ['c'] ∨ w = ['p', 'r', 'e'] ∨
          w = ['p', 'r', 'e', 'v', 'i', 'e', 'w'] then some 2
  else none

/-- Drop one optional pre-release separator character. -/
def dropSep (cs : List Char) : List Char :=
  match cs with
  | c :: t => if c = '.' ∨ c = '-' ∨ c = '_' then t else cs
  | [] => cs

/-- Parse the optional pre-release suffix; `none` means the trailing
characters are not a (modelled) valid suffix. -/
def parsePreSuffix (cs : List Char) : Option (Option (Nat × Nat)) :=
  match cs with
  | [] => some none
  | _ =>
    let cs1 := dropSep cs
    let letters := cs1.takeWhile Char.isAlpha
    let rest1 := cs1.dropWhile Char.isAlpha
    match preRank letters with
    | none => none
    | some r =>
      let rest2 := dropSep rest1
      let ds := rest2.takeWhile Char.isDigit
      let rest3 := rest2.dropWhile Char.isDigit
      if rest3.isEmpty then some (some (r, digitsVal ds)) else none

/-- Whitespace-strip of a character list (Python `str.strip`). -/
def listStrip (l : List Char) : List Char :=
  ((l.dropWhile Char.isWhitespace).reverse.dropWhile Char.isWhitespace).reverse

/-- Python `str.strip` on strings. -/
def pyStrip (s : String) : String :=
  ⟨listStrip s.data⟩

/-- Python `str.lower` (ASCII fragment, which is all the script feeds it). -/
def pyLower (s : String) : String :=
  ⟨s.data.map Char.toLower⟩

/-- `packaging.version.parse`, on the modelled fragment; `none` stands for
an `InvalidVersion` exception. -/
def version_parse (s : String) : Option PyVersion :=
  let cs := (listStrip s.data).map Char.toLower
  let cs := match cs with
    | 'v' :: t => t
    | _ => cs
  match parseDotNats (cs.length + 1) cs with
  | none => none
  | some (ns, rest) =>
    match parsePreSuffix rest with
    | none => none
    | some pre => some ⟨ns, pre⟩

example : version_parse "2.0.0a1" = some ⟨[2, 0, 0], some (0, 1)⟩ := by decide
example : version_parse "0.0" = some ⟨[0, 0], none⟩ := by decide
example : version_parse "N/A" = none := by decide
example : version_parse "1.25.0" = some ⟨[1, 25, 0], none⟩ := by decide
example : version_parse " 3.9 " = some ⟨[3, 9], none⟩ := by decide

/-- Operators of `packaging.specifiers` in the modelled fragment. -/
inductive SpecOp
  | lt | le | gt | ge | eq | ne
deriving DecidableEq, Repr

/-- A single version specifier, e.g. `>=1.0`. -/
structure PySpecifier where
  op : SpecOp
  version : PyVersion
deriving DecidableEq, Repr

/-- `Specifier._compare_*` of `packaging` on the modelled fragment.  The
exclusive `<` comparison refuses a pre-release of the very version named in
the specifier unless that version is itself a pre-release (PEP 440); with no
post or local segments in the fragment, `>` is plain order comparison. -/
def opHolds (sp : PySpecifier) (v : PyVersion) : Bool :=
  match sp.op with
  | .lt =>
    cmpVersion v sp.version = Ordering.lt &&
      !(sp.version.pre.isNone && v.pre.isSome &&
        cmpRelease v.release sp.version.release = Ordering.eq)
  | .le => cmpVersion v sp.version ≠ Ordering.gt
  | .gt => cmpVersion v sp.version = Ordering.gt
  | .ge => cmpVersion v sp.version ≠ Ordering.lt
  | .eq => cmpVersion v sp.version = Ordering.eq
  | .ne => cmpVersion v sp.version ≠ Ordering.eq

/-- `Specifier.prereleases` of `packaging`: a specifier implicitly allows
pre-releases when its operator is one of `==  >=  <=` (also `~=`, `===`,
outside the fragment) and its version is itself a pre-release. -/
def specQualifiesPre (sp : PySpecifier) : Bool :=
  (sp.op = SpecOp.eq || sp.op = SpecOp.ge || sp.op = SpecOp.le) && sp.version.pre.isSome

/-- `packaging.specifiers.SpecifierSet`: parsed comparators plus the
`_prereleases` slot (`None` until assigned, as in
`spec_set.prereleases = True`). -/
structure PySpecifierSet where
  specs : List PySpecifier
  prereleases : Option Bool
deriving DecidableEq, Repr

/-- Effective `SpecifierSet.prereleases`: the explicit slot if assigned,
otherwise whether some comparator implicitly allows pre-releases. -/
def setPrereleases (ss : PySpecifierSet) : Bool :=
  ss.prereleases.getD (ss.specs.any specQualifiesPre)

/-- `version in specifier_set` (`SpecifierSet.__contains__`): a pre-release
is rejected outright unless pre-releases are allowed; otherwise every
comparator must hold. -/
def setContains (ss : PySpecifierSet) (v : PyVersion) : Bool :=
  (!v.isPrerelease || setPrereleases ss) && ss.specs.all (opHolds · v)

/-- Split a character list on a separator character (Python `str.split`). -/
def splitOnChar (sep : Char) : List Char → List (List Char)
  | [] => [[]]
  | c :: t =>
    let r := splitOnChar sep t
    if c = sep then [] :: r
    else
      match r with
      | h :: t' => (c :: h) :: t'
      | [] => [[c]]

/-- Parse one comparator, operator first (longest operators first, as in
`packaging`'s regex); `~=`, `===` and wildcards are outside the fragment. -/
def parseSpecifier (cs : List Char) : Option PySpecifier :=
  match cs with
  | '>' :: '=' :: rest => (version_parse ⟨rest⟩).map (⟨SpecOp.ge, ·⟩)
  | '<' :: '=' :: rest => (version_parse ⟨rest⟩).map (⟨SpecOp.le, ·⟩)
  | '=' :: '=' :: rest => (version_parse ⟨rest⟩).map (⟨SpecOp.eq, ·⟩)
  | '!' :: '=' :: rest => (version_parse ⟨rest⟩).map (⟨SpecOp.ne, ·⟩)
  | '>' :: rest => (version_parse ⟨rest⟩).map (⟨SpecOp.gt, ·⟩)
  | '<' :: rest => (version_parse ⟨rest⟩).map (⟨SpecOp.lt, ·⟩)
  | _ => none

/-- `SpecifierSet(spec_str)` parsing: split on commas, strip, drop empty
pieces, parse each comparator; `none` stands for `InvalidSpecifier`. -/
def parseSpecSet (s : String) : Option (List PySpecifier) :=
  ((splitOnChar ',' s.data).map listStrip |>.filter (· ≠ [])).mapM parseSpecifier

example : parseSpecSet ">=1.0,<3.0" =
    some [⟨SpecOp.ge, ⟨[1, 0], none⟩⟩, ⟨SpecOp.lt, ⟨[3, 0], none⟩⟩] := by decide
example : parseSpecSet ">=0" = some [⟨SpecOp.ge, ⟨[0], none⟩⟩] := by decide
example : parseSpecSet "" = some [] := by decide

/-- `str(Version)` on the modelled fragment. -/
def verStr (v : PyVersion) : String :=
  String.intercalate "." (v.release.map toString) ++
    match v.pre with
    | none => ""
    | some (l, n) => (if l = 0 then "a" else if l = 1 then "b" else "rc") ++ toString n

/-- Operator spelling (normalised, as `packaging` prints it). -/
def opStr : SpecOp → String
  | .lt => "<"
  | .le => "<="
  | .gt => ">"
  | .ge => ">="
  | .eq => "=="
  | .ne => "!="

/-- `str(Specifier)`. -/
def specStr (sp : PySpecifier) : String :=
  opStr sp.op ++ verStr sp.version

/-- Lexicographic code-point order on character lists (Python `str` order). -/
def lexLe : List Char → List Char → Bool
  | [], _ => true
  | _ :: _, [] => false
  | a :: as', b :: bs =>
    if a.toNat < b.toNat then true
    else if b.toNat < a.toNat then false
    else lexLe as' bs

/-- Stable insertion into an ascending list of strings (code-point order,
matching Python's `sorted` on `str`). -/
def insertSorted (x : String) : List String → List String
  | [] => [x]
  | y :: ys => if lexLe x.data y.data then x :: y :: ys else y :: insertSorted x ys

/-- Python's `sorted` on strings. -/
def sortStrings (l : List String) : List String :=
  l.foldr insertSorted []

/-- `str(SpecifierSet)`: comma-join of the sorted comparator strings. -/
def setStr (sps : List PySpecifier) : String :=
  String.intercalate "," (sortStrings (sps.map specStr))

example : setStr [⟨SpecOp.ge, ⟨[1, 20], none⟩⟩, ⟨SpecOp.lt, ⟨[2, 0], none⟩⟩] =
    "<2.0,>=1.20" := by decide

/-- Python-dict as an insertion-ordered association list:
`d[k] = v` updates in place when the key exists, else appends. -/
def dictInsert (d : List (String × String)) (k v : String) : List (String × String) :=
  if d.any (fun p => p.1 = k) then d.map (fun p => if p.1 = k then (k, v) else p)
  else d ++ [(k, v)]

/-- Python-dict lookup: `d.get(k)`. -/
def dictGet (d : List (String × String)) (k : String) : Option String :=
  (d.find? (fun p => p.1 = k)).map (·.2)

/-- Python exceptions relevant to `get_packages`.  `packageNotFoundError`
(`importlib.metadata.PackageNotFoundError`) is a subclass of
`ModuleNotFoundError`, hence of `ImportError`. -/
inductive PyErr
  | importError
  | packageNotFoundError
deriving DecidableEq, Repr

instance {α β : Type} [DecidableEq α] [DecidableEq β] : DecidableEq (Except α β) := fun a b =>
  match a, b with
  | .ok x, .ok y =>
    if h : x = y then isTrue (by rw [h]) else isFalse (fun hc => h (Except.ok.inj hc))
  | .error x, .error y =>
    if h : x = y then isTrue (by rw [h]) else isFalse (fun hc => h (Except.error.inj hc))
  | .ok _, .error _ => isFalse (fun hc => Except.noConfusion hc)
  | .error _, .ok _ => isFalse (fun hc => Except.noConfusion hc)

/-- Whether `except ImportError` catches this exception (it also catches
`PackageNotFoundError`, via the subclass chain). -/
def PyErr.isImportErr : PyErr → Bool
  | .importError => true
  | .packageNotFoundError => true

/-- Oracle for the ambient interpreter state that `get_packages` introspects:
the outcome of `import_module`, the module-level `__version__` attribute read
with `getattr(…, "__version__", None)` (keyed by module name, which determines
the imported module), and `importlib.metadata.version`. -/
structure PyEnv where
  importModule : String → Except PyErr Unit
  dunderVersion : String → Option String
  metaVersion : String → Except PyErr String

/-- Python `module_name.replace("-", "_")` (single-character pattern, so a
character-wise map). -/
def pyReplaceHyphens (s : String) : String :=
  ⟨s.data.map (fun c => if c = '-' then '_' else c)⟩

/-- One candidate attempt, lines 35-41 (and 49-55) of the script:
`import_module`, then the `__version__` attribute, then
`importlib.metadata.version` with `except PackageNotFoundError` around it
(only that class is caught there; any other exception propagates to the
enclosing handler). -/
def tryCandidate (env : PyEnv) (m : String) : Except PyErr (Option String) :=
  match env.importModule m with
  | .error e => .error e
  | .ok _ =>
    match env.dunderVersion m with
    | some v => .ok (some v)
    | none =>
      match env.metaVersion m with
      | .ok v => .ok (some v)
      | .error .packageNotFoundError => .ok none
      | .error .importError => .error .importError

/-- The `for module_name in module_names` loop of `get_packages`: break on
the first candidate that yields a version; on `ImportError` retry the
candidate with hyphens replaced by underscores (its own `except ImportError`
falls through to the next candidate); an exception not caught by
`except ImportError` propagates. -/
def resolveVersion (env : PyEnv) : List String → Except PyErr (Option String)
  | [] => .ok none
  | m :: rest =>
    match tryCandidate env m with
    | .ok (some v) => .ok (some v)
    | .ok none => resolveVersion env rest
    | .error e =>
      if e.isImportErr then
        let alt := pyReplaceHyphens m
        if alt ≠ m then
          match tryCandidate env alt with
          | .ok (some v) => .ok (some v)
          | .ok none => resolveVersion env rest
          | .error e2 => if e2.isImportErr then resolveVersion env rest else .error e2
        else resolveVersion env rest
      else .error e

/-- `PACKAGE_MODULE_OVERRIDES.get(p.lower(), [p])`. -/
def moduleCandidates (p : String) : List String :=
  if pyLower p = "tensorflow-cpu" then ["tensorflow", "tensorflow_cpu"] else [p]

/-- Body of the `for p in pkgs` loop of `get_packages`, accumulating the
result dict; an uncaught exception aborts the whole batch. -/
def getPackagesAux (env : PyEnv) : List String → List (String × String) →
    Except PyErr (List (String × String))
  | [], acc => .ok acc
  | p :: rest, acc =>
    match resolveVersion env (moduleCandidates p) with
    | .error e => .error e
    | .ok vf => getPackagesAux env rest (dictInsert acc (pyLower p) (vf.getD "0.0"))

/-- `get_packages(pkgs)`: map lowercased package names to the resolved
version string, `"0.0"` when no candidate resolves. -/
def get_packages (env : PyEnv) (pkgs : List String) : Except PyErr (List (String × String)) :=
  getPackagesAux env pkgs []

/-- Outcome of one iteration of the `for pkg_name, spec_str in reqs.items()`
loop of `check_packages`. -/
inductive CheckOut
  | raised
  | skipped
  | line (s : String)
deriving DecidableEq, Repr

/-- The `[OK]` report line of `check_packages`. -/
def okLine (pkg : String) (v : PyVersion) : String :=
  "[OK] " ++ pkg ++ " " ++ verStr v

/-- The `[FAIL]` report line of `check_packages` (it prints the specifier
set, whose `str` is the sorted comma-join). -/
def failLine (pkg : String) (v : PyVersion) (sps : List PySpecifier) : String :=
  "[FAIL] " ++ pkg ++ " " ++ verStr v ++ ", please install a version matching " ++ setStr sps

/-- One check of `check_packages`, lines 122-134 of the script: build the
`SpecifierSet`, fetch the installed version (caller supplies the
`installed.get(pkg_name, "0.0")` value), skip on the `"N/A"` sentinel,
parse the version, enable pre-releases on the set when the installed
version is a pre-release, then test membership. -/
def check_one (pkg specStr actual : String) : CheckOut :=
  match parseSpecSet specStr with
  | none => .raised
  | some sps =>
    if actual = "N/A" then .skipped
    else
      match version_parse actual with
      | none => .raised
      | some v =>
        let ss : PySpecifierSet :=
          if v.isPrerelease then ⟨sps, some true⟩ else ⟨sps, none⟩
        if setContains ss v then .line (okLine pkg v)
        else .line (failLine pkg v sps)

/-- The report loop of `check_packages`: one line per `[OK]`/`[FAIL]` check,
nothing for a skipped check, and an uncaught exception ends the output. -/
def checkAll (installed : List (String × String)) : List (String × String) → List String
  | [] => []
  | (pkg, specStr) :: rest =>
    match check_one pkg specStr ((dictGet installed pkg).getD "0.0") with
    | .raised => []
    | .skipped => checkAll installed rest
    | .line s => s :: checkAll installed rest

/-- `check_packages(reqs)`: resolve installed versions for the required
names, then run the report loop.  (An exception escaping `get_packages`
would end the output; the theorems below show that branch is unreachable.) -/
def check_packages (env : PyEnv) (reqs : List (String × String)) : List String :=
  match get_packages env (reqs.map (·.1)) with
  | .error _ => []
  | .ok installed => checkAll installed reqs

/-- A parsed `packaging.requirements.Requirement` in the modelled fragment:
name, version specifiers, optional raw environment marker text.  Extras
(`pkg[extra]`) and URL requirements are outside the fragment. -/
structure PyRequirement where
  name : String
  specifier : List PySpecifier
  marker : Option String
deriving DecidableEq, Repr

/-- Characters admissible in a PEP 508 project name. -/
def isNameChar (c : Char) : Bool :=
  c.isAlphanum || c = '-' || c = '_' || c = '.'

/-- `Requirement(line)` on the modelled fragment: an optional `; marker`
tail, then a project name (alphanumeric at both ends), then a specifier
set; `none` stands for `InvalidRequirement`.  The marker is kept as raw
trimmed text and evaluated through an oracle. -/
def parseRequirement (cs : List Char) : Option PyRequirement :=
  let body := cs.takeWhile (· ≠ ';')
  let markerPart := cs.dropWhile (· ≠ ';')
  let marker? : Option (Option String) :=
    match markerPart with
    | [] => some none
    | _ :: m =>
      let m' := listStrip m
      if m' = [] then none else some (some ⟨m'⟩)
  match marker? with
  | none => none
  | some mk =>
    let b := listStrip body
    let nm := b.takeWhile isNameChar
    let restSpec := listStrip (b.dropWhile isNameChar)
    if nm = [] then none
    else if !(nm.head?.all Char.isAlphanum) || !(nm.getLast?.all Char.isAlphanum) then none
    else
      match ((splitOnChar ',' restSpec).map listStrip |>.filter (· ≠ [])).mapM parseSpecifier with
      | none => none
      | some sps => some ⟨⟨nm⟩, sps, mk⟩

example : parseRequirement "numpy>=1.0".data =
    some ⟨"numpy", [⟨SpecOp.ge, ⟨[1, 0], none⟩⟩], none⟩ := by decide
example : parseRequirement "torch >= 2.0, < 3.0".data =
    some ⟨"torch", [⟨SpecOp.ge, ⟨[2, 0], none⟩⟩, ⟨SpecOp.lt, ⟨[3, 0], none⟩⟩], none⟩ := by
  decide
example : parseRequirement "foo-bar==1.0; sys_platform == \"win32\"".data =
    some ⟨"foo-bar", [⟨SpecOp.eq, ⟨[1, 0], none⟩⟩], some "sys_platform == \"win32\""⟩ := by
  decide
example : parseRequirement "???".data = none := by decide

/-- Comment stripping: `line.split("#", 1)[0]` keeps everything before the
first `#`. -/
def stripCommentChars (l : List Char) : List Char :=
  l.takeWhile (· ≠ '#')

/-- The per-line normalisation of `get_requirements_dict`:
`line.split("#", 1)[0].strip()`. -/
def normLine (line : String) : String :=
  pyStrip ⟨stripCommentChars line.data⟩

/-- The parse a single manifest line receives in `get_requirements_dict`:
`none` for a blank (post-normalisation) or malformed line. -/
def parseManifestLine (line : String) : Option PyRequirement :=
  let l := normLine line
  if l.data = [] then none else parseRequirement l.data

/-- The diagnostic printed for a malformed line.  The parenthesised text
abbreviates the `InvalidRequirement` exception message, which the claims
never inspect. -/
def diagLine (l : String) : String :=
  "Skipping line due to parsing error: " ++ l ++ " (invalid requirement)"

/-- `str(req.specifier)` (sorted comma-join; empty for no specifiers). -/
def reqSpecStr (req : PyRequirement) : String :=
  setStr req.specifier

/-- The debug line printed for every successfully parsed requirement line
(line 95 of the script): `print` joins its arguments with single spaces,
and the leading literal itself ends in a space; `str(None)` is `"None"`.
The marker is shown as its raw text (the script shows `packaging`'s
normalised rendering, which agrees on the manifests modelled here). -/
def traceLine (req : PyRequirement) (l : String) : String :=
  "✈️ get_requirements_dict, add req:  " ++ req.name ++ " " ++
    (req.marker.getD "None") ++ " " ++ reqSpecStr req ++ " " ++ l

/-- The specifier string stored in the requirements dict:
`str(req.specifier) if req.specifier else ">=0"`. -/
def specString (req : PyRequirement) : String :=
  if req.specifier.isEmpty then ">=0" else setStr req.specifier

/-- The line loop of `get_requirements_dict`: returns the printed lines and
the final dict.  `me` is the oracle for `req.marker.evaluate()` (platform
inspection); a marker is evaluated only when present, and a false marker
drops the entry after the debug line was already printed. -/
def processLines (me : String → Bool) (acc : List (String × String)) :
    List String → List String × List (String × String)
  | [] => ([], acc)
  | line :: rest =>
    let l := normLine line
    if l.data = [] then processLines me acc rest
    else
      match parseRequirement l.data with
      | none =>
        let r := processLines me acc rest
        (diagLine l :: r.1, r.2)
      | some req =>
        match req.marker with
        | some m =>
          if me m then
            let r := processLines me (dictInsert acc (pyLower req.name) (specString req)) rest
            (traceLine req l :: r.1, r.2)
          else
            let r := processLines me acc rest
            (traceLine req l :: r.1, r.2)
        | none =>
          let r := processLines me (dictInsert acc (pyLower req.name) (specString req)) rest
          (traceLine req l :: r.1, r.2)

/-- `get_requirements_dict()` over the lines of the requirements file
(line iteration of the `with open(...)` block): printed lines and the
name-to-specifier dict. -/
def get_requirements_dict (me : String → Bool) (fileLines : List String) :
    List String × List (String × String) :=
  processLines me [] fileLines

/-- The ambient state the whole script reads: interpreter environment,
marker oracle, requirements-file lines, `platform.python_version()` and
`sys.version`. -/
structure PyWorld where
  env : PyEnv
  markerEval : String → Bool
  fileLines : List String
  pythonVersion : String
  sysVersion : String

/-- The module-level interpreter check, lines 14-17 of the script; `none`
stands for `InvalidVersion` escaping at import time. -/
def interpLine (w : PyWorld) : Option String :=
  match version_parse w.pythonVersion, version_parse "3.9" with
  | some pv, some v39 =>
    if cmpVersion pv v39 = Ordering.lt then
      some ("[FAIL] We recommend Python 3.9 or newer but found version " ++ w.sysVersion)
    else some ("[OK] Your Python version is " ++ w.pythonVersion)
  | _, _ => none

/-- Standard output of one run of the script (`main()` after the top-level
interpreter check). -/
def mainOutput (w : PyWorld) : List String :=
  match interpLine w with
  | none => []
  | some il =>
    let pr := get_requirements_dict w.markerEval w.fileLines
    il :: (pr.1 ++ check_packages w.env pr.2)

/-- `s` starts with `p` (on the character lists, so that concrete instances
evaluate by `decide`). -/
def strStarts (p s : String) : Bool :=
  decide (s.data.take p.data.length = p.data)

theorem find_replace_ne (d : List (String × String)) (k v k' : String) (h : k' ≠ k) :
    (d.map (fun p => if p.1 = k then (k, v) else p)).find? (fun p => p.1 = k') =
      d.find? (fun p => p.1 = k') := by
  induction d with
  | nil => rfl
  | cons hd tl ih =>
    by_cases hk : hd.1 = k
    · have h1 : ¬((k, v).1 = k') := fun hc => h hc.symm
      have h2 : ¬(hd.1 = k') := by rw [hk]; exact fun hc => h hc.symm
      simp [List.find?, hk, h1, h2, ih]
    · by_cases hp : hd.1 = k'
      · have h' : ¬(k' = k) := h
        simp [List.find?, hk, hp, h']
      · simp [List.find?, hk, hp, ih]

theorem find_append_single_ne (d : List (String × String)) (k v k' : String) (h : k' ≠ k) :
    (d ++ [(k, v)]).find? (fun p => p.1 = k') = d.find? (fun p => p.1 = k') := by
  have h' : ¬(k = k') := fun hc => h hc.symm
  induction d with
  | nil => simp [List.find?, h']
  | cons hd tl ih =>
    by_cases hp : hd.1 = k'
    · simp [List.find?, hp]
    · simp [List.find?, hp] at ih ⊢
      exact ih

theorem dictGet_insert_ne (d : List (String × String)) (k v k' : String) (h : k' ≠ k) :
    dictGet (dictInsert d k v) k' = dictGet d k' := by
  unfold dictInsert dictGet
  by_cases hmem : d.any (fun p => p.1 = k)
  · rw [if_pos hmem, find_replace_ne d k v k' h]
  · rw [if_neg hmem, find_append_single_ne d k v k' h]

theorem dictGet_insert_self (d : List (String × String)) (k v : String) :
    dictGet (dictInsert d k v) k = some v := by
  unfold dictInsert dictGet
  by_cases hmem : d.any (fun p => p.1 = k)
  · rw [if_pos hmem]
    induction d with
    | nil => simp at hmem
    | cons hd tl ih =>
      by_cases hk : hd.1 = k
      · simp [List.find?, hk]
      · have htl : tl.any (fun p => p.1 = k) := by
          simp only [List.any_cons] at hmem
          rcases Bool.or_eq_true_iff.mp hmem with h | h
          · exact absurd (of_decide_eq_true h) hk
          · exact h
        simpa [List.find?, hk] using ih htl
  · rw [if_neg hmem]
    induction d with
    | nil => simp [List.find?]
    | cons hd tl ih =>
      have hk : ¬hd.1 = k := by
        intro h
        exact hmem (by simp [List.any_cons, h])
      have htl : ¬tl.any (fun p => p.1 = k) = true := by
        intro h
        exact hmem (by simp [List.any_cons, h])
      simpa [List.find?, hk] using ih htl

theorem pyErr_isImportErr (e : PyErr) : e.isImportErr = true := by
  cases e <;> rfl

theorem resolveVersion_ok (env : PyEnv) (ms : List String) :
    ∃ o, resolveVersion env ms = Except.ok o := by
  induction ms with
  | nil => exact ⟨none, rfl⟩
  | cons m rest ih =>
    cases h : tryCandidate env m with
    | ok o =>
      cases o with
      | some v => exact ⟨some v, by simp [resolveVersion, h]⟩
      | none =>
        obtain ⟨o, ho⟩ := ih
        exact ⟨o, by simp [resolveVersion, h, ho]⟩
    | error e =>
      by_cases halt : pyReplaceHyphens m ≠ m
      · cases h2 : tryCandidate env (pyReplaceHyphens m) with
        | ok o2 =>
          cases o2 with
          | some v =>
            exact ⟨some v, by simp [resolveVersion, h, pyErr_isImportErr, halt, h2]⟩
          | none =>
            obtain ⟨o, ho⟩ := ih
            exact ⟨o, by simp [resolveVersion, h, pyErr_isImportErr, halt, h2, ho]⟩
        | error e2 =>
          obtain ⟨o, ho⟩ := ih
          exact ⟨o, by simp [resolveVersion, h, pyErr_isImportErr, halt, h2, ho]⟩
      · obtain ⟨o, ho⟩ := ih
        exact ⟨o, by simp [resolveVersion, h, pyErr_isImportErr, halt, ho]⟩

theorem getPackagesAux_ok (env : PyEnv) (pkgs : List String) (acc : List (String × String)) :
    ∃ r, getPackagesAux env pkgs acc = Except.ok r := by
  induction pkgs generalizing acc with
  | nil => exact ⟨acc, rfl⟩
  | cons p rest ih =>
    obtain ⟨vf, hvf⟩ := resolveVersion_ok env (moduleCandidates p)
    obtain ⟨r, hr⟩ := ih (dictInsert acc (pyLower p) (vf.getD "0.0"))
    exact ⟨r, by simp [getPackagesAux, hvf, hr]⟩

theorem getPackagesAux_isSome (env : PyEnv) (pkgs : List String) (acc : List (String × String))
    (r : List (String × String)) (k : String) (h : getPackagesAux env pkgs acc = Except.ok r) :
    (dictGet r k).isSome ↔ ((dictGet acc k).isSome ∨ k ∈ pkgs.map pyLower) := by
  induction pkgs generalizing acc with
  | nil =>
    simp only [getPackagesAux, Except.ok.injEq] at h
    subst h
    simp
  | cons p rest ih =>
    obtain ⟨vf, hvf⟩ := resolveVersion_ok env (moduleCandidates p)
    simp only [getPackagesAux, hvf] at h
    have := ih (dictInsert acc (pyLower p) (vf.getD "0.0")) h
    by_cases hk : k = pyLower p
    · subst hk
      rw [this, dictGet_insert_self]
      simp
    · rw [this, dictGet_insert_ne acc (pyLower p) _ k hk]
      simp only [List.map_cons, List.mem_cons]
      constructor
      · rintro (h1 | h1)
        · exact Or.inl h1
        · exact Or.inr (Or.inr h1)
      · rintro (h1 | h1 | h1)
        · exact Or.inl h1
        · exact absurd h1 hk
        · exact Or.inr h1

theorem getPackagesAux_sentinel (env : PyEnv) (pkgs : List String)
    (acc r : List (String × String)) (k : String)
    (h : getPackagesAux env pkgs acc = Except.ok r)
    (hall : ∀ q ∈ pkgs, pyLower q = k → resolveVersion env (moduleCandidates q) = Except.ok none)
    (hacc : dictGet acc k = some "0.0" ∨ (dictGet acc k = none ∧ k ∈ pkgs.map pyLower)) :
    dictGet r k = some "0.0" := by
  induction pkgs generalizing acc with
  | nil =>
    simp only [getPackagesAux, Except.ok.injEq] at h
    subst h
    rcases hacc with h1 | ⟨_, h2⟩
    · exact h1
    · simp at h2
  | cons p rest ih =>
    obtain ⟨vf, hvf⟩ := resolveVersion_ok env (moduleCandidates p)
    simp only [getPackagesAux, hvf] at h
    by_cases hk : pyLower p = k
    · have hres : resolveVersion env (moduleCandidates p) = Except.ok none :=
        hall p (List.mem_cons_self p rest) hk
      rw [hres] at hvf
      have hvfn : vf = none := by
        cases hvf
        rfl
      subst hvfn
      refine ih (dictInsert acc (pyLower p) "0.0") h ?_ ?_
      · intro q hq hql
        exact hall q (List.mem_cons_of_mem p hq) hql
      · left
        rw [← hk]
        exact dictGet_insert_self acc (pyLower p) "0.0"
    · have hne : k ≠ pyLower p := fun hc => hk hc.symm
      refine ih (dictInsert acc (pyLower p) (vf.getD "0.0")) h ?_ ?_
      · intro q hq hql
        exact hall q (List.mem_cons_of_mem p hq) hql
      · rw [dictGet_insert_ne acc (pyLower p) _ k hne]
        rcases hacc with h1 | ⟨h1, h2⟩
        · exact Or.inl h1
        · refine Or.inr ⟨h1, ?_⟩
          simp only [List.map_cons, List.mem_cons] at h2
          rcases h2 with h2 | h2
          · exact absurd h2.symm hk
          · exact h2

theorem char_toLower_fix (a : Char) (h : ¬(a.toNat ≥ 65 ∧ a.toNat ≤ 90)) :
    a.toLower = a := by
  unfold Char.toLower
  exact if_neg h

theorem char_toLower_not_upper (c : Char) :
    ¬((c.toLower).toNat ≥ 65 ∧ (c.toLower).toNat ≤ 90) := by
  unfold Char.toLower
  by_cases h : c.toNat ≥ 65 ∧ c.toNat ≤ 90
  · rw [if_pos h]
    have hv : Nat.isValidChar (c.toNat + 32) := Or.inl (by omega)
    have ht : (Char.ofNat (c.toNat + 32)).toNat = c.toNat + 32 := by
      rw [Char.ofNat, dif_pos hv]
      rfl
    rw [ht]
    omega
  · rw [if_neg h]
    exact h

theorem char_toLower_idem (c : Char) : c.toLower.toLower = c.toLower :=
  char_toLower_fix _ (char_toLower_not_upper c)

theorem pyLower_idem (s : String) : pyLower (pyLower s) = pyLower s := by
  unfold pyLower
  congr 1
  show (s.data.map Char.toLower).map Char.toLower = s.data.map Char.toLower
  rw [List.map_map]
  exact List.map_congr_left (fun a _ => char_toLower_idem a)

theorem dictInsert_keys_sub (d : List (String × String)) (k v k' : String)
    (h : k' ∈ (dictInsert d k v).map (·.1)) : k' ∈ d.map (·.1) ∨ k' = k := by
  unfold dictInsert at h
  by_cases hmem : d.any (fun p => p.1 = k)
  · rw [if_pos hmem, List.map_map] at h
    obtain ⟨p, hp, he⟩ := List.mem_map.mp h
    by_cases hk : p.1 = k
    · right
      simp only [Function.comp, hk, if_pos rfl] at he
      · exact he.symm
    · left
      simp only [Function.comp, if_neg hk] at he
      exact List.mem_map.mpr ⟨p, hp, he⟩
  · rw [if_neg hmem, List.map_append] at h
    rcases List.mem_append.mp h with h | h
    · exact Or.inl h
    · right
      simpa using h

theorem processLines_keys (me : String → Bool) (lines : List String)
    (acc : List (String × String)) (h : ∀ k ∈ acc.map (·.1), pyLower k = k) :
    ∀ k ∈ ((processLines me acc lines).2.map (·.1)), pyLower k = k := by
  induction lines generalizing acc with
  | nil => exact h
  | cons line rest ih =>
    have hins : ∀ req : PyRequirement,
        ∀ k ∈ ((dictInsert acc (pyLower req.name) (specString req)).map (·.1)),
          pyLower k = k := by
      intro req k hk
      rcases dictInsert_keys_sub acc (pyLower req.name) (specString req) k hk with h1 | h1
      · exact h k h1
      · rw [h1]
        exact pyLower_idem req.name
    by_cases hl : (normLine line).data = []
    · simpa [processLines, hl] using ih acc h
    · cases hp : parseRequirement (normLine line).data with
      | none =>
        simpa [processLines, hl, hp] using ih acc h
      | some req =>
        cases hm : req.marker with
        | some m =>
          by_cases hme : me m
          · simpa [processLines, hl, hp, hm, hme] using
              ih (dictInsert acc (pyLower req.name) (specString req)) (hins req)
          · simpa [processLines, hl, hp, hm, hme] using ih acc h
        | none =>
          simpa [processLines, hl, hp, hm] using
            ih (dictInsert acc (pyLower req.name) (specString req)) (hins req)

theorem takeAppendSelf (xs ys : List Char) : (xs ++ ys).take xs.length = xs := by
  induction xs with
  | nil => rfl
  | cons x xs ih => simp [List.take, ih]

theorem strStarts_of_data (p s : String) (r : List Char) (h : s.data = p.data ++ r) :
    strStarts p s = true := by
  unfold strStarts
  rw [h, takeAppendSelf]
  simp

theorem okLine_starts (pkg : String) (v : PyVersion) :
    strStarts "[OK] " (okLine pkg v) = true := by
  apply strStarts_of_data _ _ (pkg.data ++ " ".data ++ (verStr v).data)
  simp [okLine, String.data_append]

theorem failLine_starts (pkg : String) (v : PyVersion) (sps : List PySpecifier) :
    strStarts "[FAIL] " (failLine pkg v sps) = true := by
  apply strStarts_of_data _ _
    (pkg.data ++ " ".data ++ (verStr v).data ++
      ", please install a version matching ".data ++ (setStr sps).data)
  simp [failLine, String.data_append]

theorem diagLine_starts (l : String) :
    strStarts "Skipping line due to parsing error: " (diagLine l) = true := by
  apply strStarts_of_data _ _ (l.data ++ " (invalid requirement)".data)
  simp [diagLine, String.data_append]

theorem traceLine_starts (req : PyRequirement) (l : String) :
    strStarts "✈️ get_requirements_dict, add req:  " (traceLine req l) = true := by
  apply strStarts_of_data _ _
    (req.name.data ++ " ".data ++ (req.marker.getD "None").data ++ " ".data ++
      (reqSpecStr req).data ++ " ".data ++ l.data)
  simp [traceLine, String.data_append]

theorem okLine_ne_failLine (p1 p2 : String) (v1 v2 : PyVersion) (sps : List PySpecifier) :
    okLine p1 v1 ≠ failLine p2 v2 sps := by
  intro h
  have hd := congrArg String.data h
  simp only [okLine, failLine, String.data_append] at hd
  simp at hd

theorem check_one_line_shape (pkg specStr a s : String)
    (h : check_one pkg specStr a = CheckOut.line s) :
    (∃ v, s = okLine pkg v) ∨ (∃ v sps, s = failLine pkg v sps) := by
  unfold check_one at h
  cases hps : parseSpecSet specStr with
  | none => simp [hps] at h
  | some sps =>
    simp only [hps] at h
    by_cases hna : a = "N/A"
    · simp [hna] at h
    · rw [if_neg hna] at h
      cases hv : version_parse a with
      | none => simp [hv] at h
      | some v =>
        simp only [hv] at h
        by_cases hc : setContains (if v.isPrerelease then ⟨sps, some true⟩ else ⟨sps, none⟩) v
        · refine Or.inl ⟨v, ?_⟩
          simp only [hc, if_pos] at h
          exact (CheckOut.line.inj h).symm
        · refine Or.inr ⟨v, sps, ?_⟩
          simp only [hc, if_neg] at h
          exact (CheckOut.line.inj h).symm

theorem checkAll_shape (installed reqs : List (String × String)) (s : String)
    (h : s ∈ checkAll installed reqs) :
    (∃ pkg v, s = okLine pkg v) ∨ (∃ pkg v sps, s = failLine pkg v sps) := by
  induction reqs with
  | nil => simp [checkAll] at h
  | cons hd rest ih =>
    obtain ⟨pkg, specStr⟩ := hd
    cases hc : check_one pkg specStr ((dictGet installed pkg).getD "0.0") with
    | raised => simp [checkAll, hc] at h
    | skipped =>
      simp only [checkAll, hc] at h
      exact ih h
    | line t =>
      simp only [checkAll, hc, List.mem_cons] at h
      rcases h with h | h
      · subst h
        rcases check_one_line_shape pkg specStr _ s hc with ⟨v, hv⟩ | ⟨v, sps, hv⟩
        · exact Or.inl ⟨pkg, v, hv⟩
        · exact Or.inr ⟨pkg, v, sps, hv⟩
      · exact ih h

theorem processLines_out_shape (me : String → Bool) (lines : List String) :
    ∀ (acc : List (String × String)) (s : String), s ∈ (processLines me acc lines).1 →
    (∃ l, s = diagLine l) ∨ (∃ req l, s = traceLine req l) := by
  induction lines with
  | nil =>
    intro acc s h
    simp [processLines] at h
  | cons line rest ih =>
    intro acc s h
    by_cases hl : (normLine line).data = []
    · exact ih acc s (by simpa [processLines, hl] using h)
    · cases hp : parseRequirement (normLine line).data with
      | none =>
        simp [processLines, hl, hp] at h
        rcases h with h | h
        · exact Or.inl ⟨normLine line, h⟩
        · exact ih acc s h
      | some req =>
        cases hm : req.marker with
        | some m =>
          by_cases hme : me m
          · simp [processLines, hl, hp, hm, hme] at h
            rcases h with h | h
            · exact Or.inr ⟨req, normLine line, h⟩
            · exact ih _ s h
          · simp [processLines, hl, hp, hm, hme] at h
            rcases h with h | h
            · exact Or.inr ⟨req, normLine line, h⟩
            · exact ih _ s h
        | none =>
          simp [processLines, hl, hp, hm] at h
          rcases h with h | h
          · exact Or.inr ⟨req, normLine line, h⟩
          · exact ih _ s h

theorem takeWhile_append_stop (p : Char → Bool) (xs ys : List Char) (hp : p '#' = false) :
    (xs ++ '#' :: ys).takeWhile p = xs.takeWhile p := by
  induction xs with
  | nil => simp [List.takeWhile_cons, hp]
  | cons x xs ih =>
    by_cases hx : p x
    · simp [List.takeWhile_cons, hx, ih]
    · simp [List.takeWhile_cons, hx]

theorem stripComment_append_hash (xs ys : List Char) :
    stripCommentChars (xs ++ '#' :: ys) = stripCommentChars xs :=
  takeWhile_append_stop _ xs ys (by decide)

/-- C1: for every required package whose installed version string parses as a
pre-release, `check_packages` relaxes the specifier set (its `prereleases`
slot is assigned `true`) before testing membership, so its verdict is exactly
membership in the relaxed set; in particular installed `2.0.0a1` against
`>=1.0,<3.0` reports `[OK]`. -/
theorem c1_prerelease_relaxed_membership :
    (∀ (pkg specStr ver : String) (sps : List PySpecifier) (v : PyVersion),
      parseSpecSet specStr = some sps → version_parse ver = some v →
      v.isPrerelease = true →
      check_one pkg specStr ver =
        (if setContains ⟨sps, some true⟩ v then CheckOut.line (okLine pkg v)
         else CheckOut.line (failLine pkg v sps)))
    ∧ check_one "pkg" ">=1.0,<3.0" "2.0.0a1" = CheckOut.line "[OK] pkg 2.0.0a1" := by
  constructor
  · intro pkg specStr ver sps v hs hv hpre
    have hna : ver ≠ "N/A" := by
      intro h
      rw [h] at hv
      simp [show version_parse "N/A" = none from by decide] at hv
    simp [check_one, hs, hna, hv, hpre]
  · decide

/-- C2: a required package for which no candidate module resolves is mapped
to the sentinel `"0.0"` by `get_packages`, and the check of a `"0.0"`
installed version prints a `[FAIL]` line unless version `0.0` is a member of
the requirement's specifier set; concretely, `torch` absent under `>=2.0`
yields the `[FAIL]` line. -/
theorem c2_unresolved_package_sentinel_fails :
    (∀ (env : PyEnv) (pkgs : List String) (p : String), p ∈ pkgs →
      (∀ q ∈ pkgs, pyLower q = pyLower p →
        resolveVersion env (moduleCandidates q) = Except.ok none) →
      ∃ r, get_packages env pkgs = Except.ok r ∧ dictGet r (pyLower p) = some "0.0")
    ∧ (∀ (pkg specStr : String) (sps : List PySpecifier), parseSpecSet specStr = some sps →
        setContains ⟨sps, none⟩ ⟨[0, 0], none⟩ = false →
        check_one pkg specStr "0.0" = CheckOut.line (failLine pkg ⟨[0, 0], none⟩ sps))
    ∧ check_one "torch" ">=2.0" "0.0" =
        CheckOut.line "[FAIL] torch 0.0, please install a version matching >=2.0" := by
  refine ⟨?_, ?_, by decide⟩
  · intro env pkgs p hp hall
    obtain ⟨r, hr⟩ := getPackagesAux_ok env pkgs []
    refine ⟨r, hr, ?_⟩
    refine getPackagesAux_sentinel env pkgs [] r (pyLower p) hr hall (Or.inr ⟨rfl, ?_⟩)
    exact List.mem_map_of_mem pyLower hp
  · intro pkg specStr sps hs hc
    have h00 : version_parse "0.0" = some ⟨[0, 0], none⟩ := by decide
    have hna : ("0.0" : String) ≠ "N/A" := by decide
    simp [check_one, hs, hna, h00, hc, PyVersion.isPrerelease]

/-- C3: a trailing comment (everything from the first `#` onward) never
affects the parse of a manifest line: for every line body and comment text
the parse results agree, and concretely `pkg>=1.0 # note` parses exactly as
`pkg>=1.0`. -/
theorem c3_comment_stripped_parse_eq :
    (∀ s c : String, parseManifestLine (s ++ "#" ++ c) = parseManifestLine s)
    ∧ parseManifestLine "pkg>=1.0 # note" = parseManifestLine "pkg>=1.0"
    ∧ parseManifestLine "pkg>=1.0" =
        some ⟨"pkg", [⟨SpecOp.ge, ⟨[1, 0], none⟩⟩], none⟩ := by
  refine ⟨?_, by decide, by decide⟩
  intro s c
  have hdata : (s ++ "#" ++ c).data = s.data ++ '#' :: c.data := by
    rw [String.data_append, String.data_append]
    simp [show ("#" : String).data = ['#'] from rfl]
  unfold parseManifestLine normLine
  rw [hdata, stripComment_append_hash]

/-- C4: `get_packages` never raises for any interpreter environment and any
input collection: every import or metadata failure is caught and the result
is an `ok` dict with an entry for every (lowercased) input name. -/
theorem c4_get_packages_never_raises :
    ∀ (env : PyEnv) (pkgs : List String),
      ∃ r, get_packages env pkgs = Except.ok r ∧
        ∀ p ∈ pkgs, (dictGet r (pyLower p)).isSome = true := by
  intro env pkgs
  obtain ⟨r, hr⟩ := getPackagesAux_ok env pkgs []
  refine ⟨r, hr, ?_⟩
  intro p hp
  rw [getPackagesAux_isSome env pkgs [] r (pyLower p) hr]
  exact Or.inr (List.mem_map_of_mem pyLower hp)

/-- An environment in which `foo-bar` imports fine but yields no version
while `foo_bar` carries `__version__ = "1.0"`: the resolver does not retry
the underscore spelling, refuting the unconditional retry reading. -/
def envImportOkNoVersion : PyEnv :=
  ⟨fun m => if m = "foo-bar" ∨ m = "foo_bar" then Except.ok () else Except.error PyErr.importError,
   fun m => if m = "foo_bar" then some "1.0" else none,
   fun _ => Except.error PyErr.packageNotFoundError⟩

/-- C5 counterexample: for candidate `foo-bar` the import succeeds, neither
the version attribute nor the metadata lookup yields a result, and the
underscore variant `foo_bar` would yield `1.0`; yet `get_packages` returns
the `0.0` sentinel, i.e. no underscore retry happened. -/
theorem c5_no_underscore_retry_counterexample :
    envImportOkNoVersion.importModule "foo-bar" = Except.ok () ∧
    envImportOkNoVersion.dunderVersion "foo-bar" = none ∧
    envImportOkNoVersion.metaVersion "foo-bar" = Except.error PyErr.packageNotFoundError ∧
    tryCandidate envImportOkNoVersion "foo_bar" = Except.ok (some "1.0") ∧
    moduleCandidates "foo-bar" = ["foo-bar"] ∧
    get_packages envImportOkNoVersion ["foo-bar"] = Except.ok [("foo-bar", "0.0")] := by
  refine ⟨by decide, by decide, by decide, by decide, by decide, by decide⟩

/-- C5 (amended): the hyphen-to-underscore retry happens exactly when
importing the candidate raises `ImportError` (and the name contains a
hyphen); then the underscore variant is attempted (import, version
attribute, metadata) before moving on to the next candidate. -/
theorem c5_underscore_retry_on_import_error :
    ∀ (env : PyEnv) (m : String) (rest : List String) (e : PyErr),
      env.importModule m = Except.error e → pyReplaceHyphens m ≠ m →
      resolveVersion env (m :: rest) =
        (match tryCandidate env (pyReplaceHyphens m) with
         | Except.ok (some v) => Except.ok (some v)
         | _ => resolveVersion env rest) := by
  intro env m rest e him halt
  have htc : tryCandidate env m = Except.error e := by
    unfold tryCandidate
    rw [him]
  cases h2 : tryCandidate env (pyReplaceHyphens m) with
  | ok o =>
    cases o with
    | some v => simp [resolveVersion, htc, pyErr_isImportErr, halt, h2]
    | none => simp [resolveVersion, htc, pyErr_isImportErr, halt, h2]
  | error e2 => simp [resolveVersion, htc, pyErr_isImportErr, halt, h2]

/-- An environment in which only the underscore spelling is importable. -/
def envOnlyUnderscore : PyEnv :=
  ⟨fun m => if m = "foo_bar" then Except.ok () else Except.error PyErr.importError,
   fun m => if m = "foo_bar" then some "2.0" else none,
   fun _ => Except.error PyErr.packageNotFoundError⟩

/-- C5 witness: the amended statement at the concrete candidate `foo-bar`. -/
theorem c5_witness_underscore_retry :
    resolveVersion envOnlyUnderscore ["foo-bar"] =
      (match tryCandidate envOnlyUnderscore (pyReplaceHyphens "foo-bar") with
       | Except.ok (some v) => Except.ok (some v)
       | _ => resolveVersion envOnlyUnderscore []) :=
  c5_underscore_retry_on_import_error envOnlyUnderscore "foo-bar" [] PyErr.importError
    (by decide) (by decide)

/-- C6: a successfully parsed line whose environment marker evaluates false
is dropped: the requirements dict is as if the line were absent (only the
debug trace line is printed for it), so no `[OK]` or `[FAIL]` check line is
produced for that package. -/
theorem c6_false_marker_drops_entry :
    ∀ (me : String → Bool) (env : PyEnv) (rest : List String) (line : String)
      (req : PyRequirement) (m : String),
      parseManifestLine line = some req → req.marker = some m → me m = false →
      (get_requirements_dict me (line :: rest)).2 = (get_requirements_dict me rest).2 ∧
      (get_requirements_dict me (line :: rest)).1 =
        traceLine req (normLine line) :: (get_requirements_dict me rest).1 ∧
      check_packages env (get_requirements_dict me (line :: rest)).2 =
        check_packages env (get_requirements_dict me rest).2 := by
  intro me env rest line req m hpm hm hme
  have hl : ¬(normLine line).data = [] := by
    intro h
    simp [parseManifestLine, h] at hpm
  have hp : parseRequirement (normLine line).data = some req := by
    simpa [parseManifestLine, hl] using hpm
  unfold get_requirements_dict
  refine ⟨?_, ?_, ?_⟩ <;> simp [processLines, hl, hp, hm, hme]

/-- A marker oracle on which every marker is false (a non-Windows platform
evaluating a win32 marker). -/
def markerAlwaysFalse : String → Bool := fun _ => false

/-- An interpreter environment with no importable modules. -/
def envNoModules : PyEnv :=
  ⟨fun _ => Except.error PyErr.importError, fun _ => none,
   fun _ => Except.error PyErr.packageNotFoundError⟩

/-- The parsed form of the manifest line used in the C6 witness. -/
def reqFooBarWin : PyRequirement :=
  ⟨"foo-bar", [⟨SpecOp.eq, ⟨[1, 0], none⟩⟩], some "sys_platform == \"win32\""⟩

/-- C6 witness: the spec's scenario, a win32-marked line on a platform where
the marker is false, next to an unrelated `numpy` line. -/
theorem c6_witness_win32_marker :
    (get_requirements_dict markerAlwaysFalse
        ("foo-bar==1.0; sys_platform == \"win32\"" :: ["numpy>=1.0"])).2 =
      (get_requirements_dict markerAlwaysFalse ["numpy>=1.0"]).2 ∧
    (get_requirements_dict markerAlwaysFalse
        ("foo-bar==1.0; sys_platform == \"win32\"" :: ["numpy>=1.0"])).1 =
      traceLine reqFooBarWin (normLine "foo-bar==1.0; sys_platform == \"win32\"") ::
        (get_requirements_dict markerAlwaysFalse ["numpy>=1.0"]).1 ∧
    check_packages envNoModules
        (get_requirements_dict markerAlwaysFalse
          ("foo-bar==1.0; sys_platform == \"win32\"" :: ["numpy>=1.0"])).2 =
      check_packages envNoModules (get_requirements_dict markerAlwaysFalse ["numpy>=1.0"]).2 :=
  c6_false_marker_drops_entry markerAlwaysFalse envNoModules ["numpy>=1.0"]
    "foo-bar==1.0; sys_platform == \"win32\"" reqFooBarWin "sys_platform == \"win32\""
    (by decide) (by decide) (by decide)

/-- C7: a non-blank manifest line that fails to parse produces exactly one
diagnostic line, is skipped, and processing continues with the remaining
lines and an unchanged dict. -/
theorem c7_malformed_line_diag_and_continue :
    ∀ (me : String → Bool) (acc : List (String × String)) (rest : List String) (line : String),
      (normLine line).data ≠ [] → parseRequirement (normLine line).data = none →
      processLines me acc (line :: rest) =
        (diagLine (normLine line) :: (processLines me acc rest).1,
         (processLines me acc rest).2) := by
  intro me acc rest line hl hp
  simp [processLines, hl, hp]

/-- C7 witness: the malformed line `torch >>= 1`. -/
theorem c7_witness_bad_line :
    processLines (fun _ => true) [] ["torch >>= 1"] =
      (diagLine (normLine "torch >>= 1") ::
        (processLines (fun _ => true) [] ([] : List String)).1,
       (processLines (fun _ => true) [] ([] : List String)).2) :=
  c7_malformed_line_diag_and_continue (fun _ => true) [] [] "torch >>= 1"
    (by decide) (by decide)

/-- C8 (amended): after the interpreter line, which comes first, every line
of a run's output is an `[OK] ` check line, a `[FAIL] ` check line, a
`Skipping line due to parsing error: ` diagnostic, or a
`✈️ get_requirements_dict, add req:  ` parse-trace line. -/
theorem c8_output_lines_shape :
    ∀ (w : PyWorld) (il : String), interpLine w = some il →
      ∃ body, mainOutput w = il :: body ∧
        ∀ s ∈ body,
          strStarts "[OK] " s = true ∨ strStarts "[FAIL] " s = true ∨
          strStarts "Skipping line due to parsing error: " s = true ∨
          strStarts "✈️ get_requirements_dict, add req:  " s = true := by
  intro w il hil
  refine ⟨(get_requirements_dict w.markerEval w.fileLines).1 ++
      check_packages w.env (get_requirements_dict w.markerEval w.fileLines).2, ?_, ?_⟩
  · simp [mainOutput, hil]
  · intro s hs
    rcases List.mem_append.mp hs with hs | hs
    · rcases processLines_out_shape w.markerEval w.fileLines [] s hs with ⟨l, rfl⟩ | ⟨req, l, rfl⟩
      · exact Or.inr (Or.inr (Or.inl (diagLine_starts l)))
      · exact Or.inr (Or.inr (Or.inr (traceLine_starts req l)))
    · unfold check_packages at hs
      cases hg : get_packages w.env
          ((get_requirements_dict w.markerEval w.fileLines).2.map (·.1)) with
      | error e =>
        rw [hg] at hs
        simp at hs
      | ok installed =>
        rw [hg] at hs
        rcases checkAll_shape installed _ s hs with ⟨pkg, v, rfl⟩ | ⟨pkg, v, sps, rfl⟩
        · exact Or.inl (okLine_starts pkg v)
        · exact Or.inr (Or.inl (failLine_starts pkg v sps))

/-- A world with one manifest line `numpy>=1.0` and numpy 1.25.0 installed,
on Python 3.11.0. -/
def worldOneNumpy : PyWorld := {
  env := ⟨fun m => if m = "numpy" then Except.ok () else Except.error PyErr.importError,
          fun m => if m = "numpy" then some "1.25.0" else none,
          fun _ => Except.error PyErr.packageNotFoundError⟩,
  markerEval := fun _ => true,
  fileLines := ["numpy>=1.0"],
  pythonVersion := "3.11.0",
  sysVersion := "3.11.0 (main)" }

/-- C8 witness: the amended shape at the concrete one-line world. -/
theorem c8_witness_shape :
    ∃ body, mainOutput worldOneNumpy = "[OK] Your Python version is 3.11.0" :: body ∧
      ∀ s ∈ body,
        strStarts "[OK] " s = true ∨ strStarts "[FAIL] " s = true ∨
        strStarts "Skipping line due to parsing error: " s = true ∨
        strStarts "✈️ get_requirements_dict, add req:  " s = true :=
  c8_output_lines_shape worldOneNumpy "[OK] Your Python version is 3.11.0" (by decide)

/-- C8 counterexample: a run prints a parse-trace line that is neither an
`[OK]`/`[FAIL]` check line nor a malformed-line diagnostic, so the output is
not only check lines plus the interpreter line and diagnostics. -/
theorem c8_debug_line_counterexample :
    mainOutput worldOneNumpy =
      ["[OK] Your Python version is 3.11.0",
       "✈️ get_requirements_dict, add req:  numpy None >=1.0 numpy>=1.0",
       "[OK] numpy 1.25.0"] ∧
    ∃ s ∈ mainOutput worldOneNumpy,
      strStarts "[OK]" s = false ∧ strStarts "[FAIL]" s = false ∧
      strStarts "Skipping line due to parsing error:" s = false := by
  refine ⟨by decide, "✈️ get_requirements_dict, add req:  numpy None >=1.0 numpy>=1.0",
    by decide, by decide, by decide, by decide⟩

/-- C9: when the installed entry is the sentinel `"N/A"`, the check is
skipped entirely: the verdict is `skipped` for every package and specifier,
the version string `N/A` is never parsed (it has no parse), and the report
loop prints nothing for that entry. -/
theorem c9_na_sentinel_skips_check :
    (∀ (pkg specStr : String) (sps : List PySpecifier), parseSpecSet specStr = some sps →
      check_one pkg specStr "N/A" = CheckOut.skipped)
    ∧ version_parse "N/A" = none
    ∧ (∀ (installed : List (String × String)) (pkg specStr : String)
        (rest : List (String × String)), dictGet installed pkg = some "N/A" →
        (parseSpecSet specStr).isSome = true →
        checkAll installed ((pkg, specStr) :: rest) = checkAll installed rest) := by
  refine ⟨?_, by decide, ?_⟩
  · intro pkg specStr sps h
    simp [check_one, h]
  · intro installed pkg specStr rest hget hsome
    obtain ⟨sps, hs⟩ := Option.isSome_iff_exists.mp hsome
    simp [checkAll, hget, check_one, hs]

/-- C10: the key set of `get_packages` is exactly the lowercased input
names; the keys of the parsed requirements dict are already lowercase; hence
looking each requirement key up in the installed dict always succeeds and
the `"0.0"` default of `installed.get(pkg_name, "0.0")` is never used. -/
theorem c10_installed_keys_are_lowered_names :
    (∀ (env : PyEnv) (pkgs : List String) (r : List (String × String)),
      get_packages env pkgs = Except.ok r →
      ∀ k, (dictGet r k).isSome = true ↔ k ∈ pkgs.map pyLower)
    ∧ (∀ (me : String → Bool) (lines : List String) (k : String),
        k ∈ (get_requirements_dict me lines).2.map (·.1) → pyLower k = k)
    ∧ (∀ (env : PyEnv) (reqs : List (String × String)) (r : List (String × String)),
        get_packages env (reqs.map (·.1)) = Except.ok r →
        (∀ k ∈ reqs.map (·.1), pyLower k = k) →
        ∀ k ∈ reqs.map (·.1), (dictGet r k).isSome = true) := by
  refine ⟨?_, ?_, ?_⟩
  · intro env pkgs r hr k
    rw [getPackagesAux_isSome env pkgs [] r k hr]
    simp [dictGet, List.find?]
  · intro me lines k hk
    exact processLines_keys me lines [] (by simp) k hk
  · intro env reqs r hr hlow k hk
    have hr2 : getPackagesAux env (reqs.map (·.1)) [] = Except.ok r := hr
    rw [getPackagesAux_isSome env (reqs.map (·.1)) [] r k hr2]
    right
    exact List.mem_map.mpr ⟨k, hk, hlow k hk⟩
